import Mathlib

/-!
# Verification of the BAT Buffer Pool (BBP) core of gdk_bbp.c

A shallow embedding of the reference-counting, slot-allocation, name-index,
catalog-header, commit and recovery logic of `gdk/gdk_bbp.c`
(MonetDB 11.41.31), together with theorems settling the specification
claims about it.

Conventions used throughout:
* machine integers are modelled as `Nat`/`Int` (no overflow is relevant to
  any of the modelled code paths);
* the per-slot spin-wait loops of the C code (`BBPspin` on `UNLOADING`,
  `UNSTABLE`, ...) block until the named status bits clear; in this
  sequential model the corresponding definitions are stated for states in
  which those bits are already clear, and the theorems carry that as a
  hypothesis;
* fallible filesystem primitives are driven by explicit Boolean outcome
  fields so that every error path of the C code is a reachable branch of
  the model.
-/

namespace GdkBbp

/-! ## Status bits

One Boolean per recognised `BBP_status` flag (`gdk_bbp.h` bit values are
irrelevant to the logic; only set/clear/test operations occur). -/

structure Status where
  loaded : Bool
  loading : Bool
  unloading : Bool
  saving : Bool
  syncing : Bool
  swapped : Bool
  deleted : Bool
  deleting : Bool
  existing : Bool
  newbit : Bool
  tmp : Bool
  persistent : Bool
  hot : Bool
  renamed : Bool
deriving DecidableEq, Repr

namespace Refs

/-! ## Reference and status core: `incref`, `decref`, `BBPkeepref`, `BBPtrim`

Single-slot model.  A `BATdesc` carries exactly the descriptor fields the
modelled code reads: `batSharecnt`, the two view parent ids
(`VIEWtparent`/`VIEWvtparent`, 0 meaning "that heap is not shared"),
`BATdirty`, `batCount`/`batInserted`, whether the heap farm is in-memory
(`GDKinmemory(farmid)`), and whether all heaps are `STORE_MMAP`. -/

structure BATdesc where
  sharecnt : Nat
  tparent : Nat
  vparent : Nat
  dirty : Bool
  count : Nat
  inserted : Nat
  inmemFarm : Bool
  allMMap : Bool
deriving DecidableEq, Repr

/-- `isVIEW(b)`: some heap is borrowed from a parent. -/
def BATdesc.isView (b : BATdesc) : Bool := b.tparent != 0 || b.vparent != 0

/-- One BBP slot: `BBP_refs`, `BBP_lrefs`, `BBP_status`, `BBP_desc`
(the descriptor, possibly present while unloaded) and whether the slot is
cached (`BBP_cache(i) != NULL`; the cache pointer aliases the descriptor,
so it is modelled as the flag `cached`), plus `BBP_pid`. -/
structure Slot where
  refs : Nat
  lrefs : Nat
  status : Status
  desc : Option BATdesc
  cached : Bool
  pid : Nat
deriving DecidableEq, Repr

/-- `BBP_cache(i)`: the cached descriptor, `none` when unloaded. -/
def Slot.cache (s : Slot) : Option BATdesc := if s.cached then s.desc else none

/-- Result of `incref`: the returned reference count (0 on failure) and the
updated slot. -/
def incref (logical : Bool) (check : Bool) (parentLoadOK : Bool) (s : Slot) :
    Nat × Slot :=
  -- if (!BBPcheck(i)) return 0;
  if !check then (0, s)
  else
    -- pre-load parent BATs for a physical incref (BATdescriptor(tp/tvp));
    -- `parentLoadOK` is the outcome of those loads (external collaborator).
    -- tp/tvp are read from the descriptor; 0 encodes "no parent".
    let tp : Nat := if !logical then (match s.desc with
                      | some b => b.tparent
                      | none => 0) else 0
    let tvp : Nat := if !logical then (match s.desc with
                      | some b => b.vparent
                      | none => 0) else 0
    if !logical && s.desc.isSome && (tp != 0 || tvp != 0) && !parentLoadOK then
      (0, s)
    else
      -- (spin until ¬(status & (BBPUNSTABLE|BBPLOADING)); modelled for
      -- states where those bits are clear)
      match s.desc with
      | none =>
        -- b == NULL: "should not have happened"; unlock and return 0
        (0, s)
      | some _ =>
        if logical then
          -- refs = ++BBP_lrefs(i); BBP_pid(i) = 0;
          (s.lrefs + 1, { s with lrefs := s.lrefs + 1, pid := 0 })
        else
          -- refs = ++BBP_refs(i); set BBPHOT (plus BBPLOADING when this is
          -- the first fix of a view; the load itself swizzles the heap of
          -- the parent and clears BBPLOADING again, leaving HOT set)
          (s.refs + 1,
            { s with refs := s.refs + 1,
                     status := { s.status with hot := true } })

/-- Intermediate state of `decref` (physical, non-share case) after the
decrement, the view-parent `HOT` marking and the re-dirtying fix-up, i.e.
the state at which the unload condition is evaluated. -/
def decrefMid (s : Slot) : Slot :=
  -- refs = --BBP_refs(i); if (b && refs == 0) { tp/tvp; status |= HOT }
  let s1 : Slot :=
    if s.refs = 0 then s  -- "does not have pointer fixes" error branch
    else
      let s' := { s with refs := s.refs - 1 }
      match s'.cache with
      | some b =>
        if s'.refs = 0 && (b.tparent != 0 || b.vparent != 0) then
          { s' with status := { s'.status with hot := true } }
        else s'
      | none => s'
  -- if (b) { if (batCount > batInserted && !isVIEW(b)) dirty bits back on }
  match s1.cache with
  | some b =>
    if b.count > b.inserted && !b.isView then
      { s1 with desc := some { b with dirty := true } }
    else s1
  | none => s1

/-- The unload condition evaluated by `decref` once the pin count reached
zero (the `swap` flag of the C code), as a standalone predicate on the
intermediate state.  `vmRoom` is the outcome of the virtual-memory headroom
test that decides whether `BBPHOT` joins `chkflag`. -/
def decrefUnloadCond (vmRoom : Bool) (s : Slot) : Bool :=
  s.refs = 0 &&
    (s.lrefs = 0 ||
      (match s.cache with
       | some b =>
         !b.dirty &&
           !(s.status.syncing || (vmRoom && s.status.hot)) &&
           s.status.persistent &&
           !b.inmemFarm &&
           b.sharecnt = 0
       | none => s.status.tmp))

/-- Result of `decref`: returned count, updated slot, the unload decision
(`swap`), and the parent ids handed to the trailing parent `decref`s
(not recursed into: the claims are about the slot itself). -/
structure DecrefOut where
  refs : Nat
  slot : Slot
  swap : Bool
  parentIds : List Nat
deriving DecidableEq, Repr

/-- A slot with everything zeroed, as left behind by `bbpclear` (status 0,
counts 0, descriptor destroyed, slot back on a free list). -/
def clearedSlot : Slot :=
  { refs := 0, lrefs := 0,
    status := ⟨false, false, false, false, false, false, false, false,
               false, false, false, false, false, false⟩,
    desc := none, cached := false, pid := 0 }

/-- `decref(i, logical, releaseShare, lock)` of gdk_bbp.c, modelled on one
slot.  The `is_bat_nil`/`BBPcheck` guards and the spin on `BBPUNLOADING`
are per-id preconditions (theorems hypothesise `status.unloading = false`).
The effects of `BBPdestroy`/`BATdelete`+`BBPclear` are modelled as
`clearedSlot`; `BBPfree` persists a dirty bat (external), frees the heap
memory and uncaches (`cached := false`, `BBPLOADED` off, `BBPUNLOADING`
off). -/
def decref (logical : Bool) (releaseShare : Bool) (vmRoom : Bool) (s : Slot) :
    DecrefOut :=
  if releaseShare then
    -- --BBP_desc(i)->batSharecnt (error and no change when already 0)
    match s.desc with
    | some b =>
      if b.sharecnt = 0 then ⟨0, s, false, []⟩
      else ⟨0, { s with desc := some { b with sharecnt := b.sharecnt - 1 } },
            false, []⟩
    | none => ⟨0, s, false, []⟩
  else if logical then
    -- refs = --BBP_lrefs(i) (error branch: no decrement, refs stays 0)
    let s1 := if s.lrefs = 0 then s else { s with lrefs := s.lrefs - 1 }
    let ret : Nat := if s.lrefs = 0 then 0 else s.lrefs - 1
    -- (logical decrement does not set HOT and does not collect parents)
    let s2 := match s1.cache with
      | some b =>
        if b.count > b.inserted && !b.isView then
          { s1 with desc := some { b with dirty := true } }
        else s1
      | none => s1
    decrefFinish vmRoom ret ([]) s2
  else
    let tp : Nat := match s.cache with
      | some b => if s.refs = 1 then b.tparent else 0
      | none => 0
    let tvp : Nat := match s.cache with
      | some b => if s.refs = 1 then b.vparent else 0
      | none => 0
    let ret : Nat := if s.refs = 0 then 0 else s.refs - 1
    decrefFinish vmRoom ret ((if tp != 0 then [tp] else []) ++
                             (if tvp != 0 then [tvp] else [])) (decrefMid s)
where
  /-- Shared tail of `decref`: unload decision and unload/destroy actions. -/
  decrefFinish (vmRoom : Bool) (ret : Nat) (parents : List Nat) (s : Slot) :
      DecrefOut :=
    let swap := decrefUnloadCond vmRoom s
    if swap then
      let lrefs := s.lrefs
      match s.cache with
      | some _ =>
        if lrefs = 0 && !s.status.deleted then
          -- BBPdestroy(b): BATdelete + BBPclear
          ⟨ret, clearedSlot, true, parents⟩
        else
          -- BBPfree(b): BBPsave; BATfree; BBPuncacheit(bid, false);
          -- BBPUNLOADING off
          ⟨ret,
           { s with cached := false,
                    status := { s.status with loaded := false,
                                              unloading := false } },
           true, parents⟩
      | none =>
        if lrefs = 0 && !s.status.deleted then
          -- BATdelete(BBP_desc(i)); BBPclear
          ⟨ret, clearedSlot, true, parents⟩
        else
          ⟨ret, { s with status := { s.status with unloading := false } },
           true, parents⟩
    else ⟨ret, s, false, parents⟩

/-- `BBPkeepref(i)`: `incref(i, true, lock)`, then `BBPdescriptor(i)`
(reload when uncached), `BATsettrivprop`/`BATsetaccess(b, BAT_READ)`
(property bookkeeping; `setaccOK` is the outcome of `BATsetaccess` — on
failure the C code returns early, the reference having already been
released by the callee), then `decref(i, false, false, lock)`. -/
def BBPkeepref (check : Bool) (setaccOK : Bool) (vmRoom : Bool) (s : Slot) :
    Slot :=
  if check then
    let r := incref true true true s
    let s1 := r.2
    let s2 := if s1.cached then s1
              else if s1.desc.isSome then { s1 with cached := true } else s1
    if s2.cache.isSome && !setaccOK then s2
    else (decref false false vmRoom s2).slot
  else s

/-- The sequence `BBPretain(i); BBPunfix(i)`, i.e.
`incref(i, true, lock)` followed by `decref(i, false, false, lock)`. -/
def retainThenUnfix (check : Bool) (vmRoom : Bool) (s : Slot) : Slot :=
  (decref false false vmRoom (incref true check true s).2).slot

/-- The unload condition of one `BBPtrim` iteration, as a standalone
predicate: no `UNLOADING|SYNCING|SAVING` (plus `HOT` when not aggressive),
`refs == 0`, `lrefs != 0`, cached, share count zero, not a view, and clean
(or aggressive with all heaps memory-mapped).  (The `BBPPERSISTENT` clause
of this test is commented out in the source.) -/
def trimUnloadCond (aggressive : Bool) (s : Slot) : Bool :=
  !(s.status.unloading || s.status.syncing || s.status.saving ||
      (!aggressive && s.status.hot)) &&
    s.refs = 0 && s.lrefs != 0 &&
    (match s.cache with
     | some b =>
       b.sharecnt = 0 && !b.isView &&
         (!b.dirty || (aggressive && b.allMMap))
     | none => false)

/-- One slot visit of `BBPtrim(aggressive)`: evaluate the unload condition
under the swap lock; when it holds set `BBPUNLOADING` and `BBPfree` the
bat.  Returns the unload decision and the updated slot. -/
def BBPtrimStep (aggressive : Bool) (s : Slot) : Bool × Slot :=
  let flagHit := s.status.unloading || s.status.syncing || s.status.saving ||
      (!aggressive && s.status.hot)
  let swap :=
    !flagHit && s.refs = 0 && s.lrefs != 0 &&
      (match s.cache with
       | some b =>
         b.sharecnt = 0 && !b.isView &&
           (!b.dirty || (aggressive && b.allMMap))
       | none => false)
  if swap then
    -- BBP_status_on(bid, BBPUNLOADING); BBPfree(b)
    (true, { s with cached := false,
                    status := { s.status with loaded := false,
                                              unloading := false } })
  else (false, s)

/-- The spec's unload predicate for a slot with descriptor `b`, written
from the specification text (§4.4 Unload predicate):
`refs == 0 ∧ sharecnt == 0 ∧ ¬view ∧ ¬(status & (UNLOADING|SYNCING|SAVING))
∧ (¬dirty ∨ (aggressive ∧ all heaps mmapped)) ∧ (lrefs == 0 ∨ PERSISTENT)`.
This is the spec-side definition to be compared with the code. -/
def specUnloadPred (aggressive : Bool) (s : Slot) (b : BATdesc) : Bool :=
  s.refs = 0 && b.sharecnt = 0 && !b.isView &&
    !(s.status.unloading || s.status.syncing || s.status.saving) &&
    (!b.dirty || (aggressive && b.allMMap)) &&
    (s.lrefs = 0 || s.status.persistent)

end Refs

end GdkBbp

namespace GdkBbp

open Refs

/-! ## Claim theorems for the reference core (C3, C4, C10) -/

/-- An all-clear status word. -/
def statusClear : Status :=
  ⟨false, false, false, false, false, false, false, false,
   false, false, false, false, false, false⟩

/-- A dirty, non-view, unshared descriptor (counterexample C3). -/
def c3desc : BATdesc :=
  { sharecnt := 0, tparent := 0, vparent := 0, dirty := true,
    count := 0, inserted := 0, inmemFarm := false, allMMap := false }

/-- A loaded transient slot holding `c3desc` with one pin and no logical
references (counterexample C3). -/
def c3slot : Slot :=
  { refs := 1, lrefs := 0, status := statusClear, desc := some c3desc,
    cached := true, pid := 7 }

/-- C3 counterexample: in `decref` (`BBPunfix`), a dirty bat whose pin
count just reached 0 with `lrefs == 0` *is* unloaded (the `swap` decision
fires and the slot is destroyed), although the spec's unload predicate is
false at that state (the bat is dirty and `decref` has no aggressive
mode), for either value of `aggressive`. -/
theorem C3_counterexample :
    (decref false false false c3slot).swap = true ∧
    specUnloadPred false (decrefMid c3slot) c3desc = false ∧
    specUnloadPred true (decrefMid c3slot) c3desc = false := by
  decide

/-- C3 (amended): the unload decision of `decref` equals the standalone
condition `decrefUnloadCond` evaluated at the intermediate state (pin
decremented, view parents marked hot, dirty bits fixed up): unload iff
`refs == 0` and (`lrefs == 0`, or — with a cached descriptor — the bat is
clean, `SYNCING` is clear (and `HOT` is clear when there is VM headroom),
`PERSISTENT` is set, the farm is not in-memory and the share count is 0;
or — uncached — the `TMP` bit is set).  The unload decision of a `BBPtrim`
visit equals `trimUnloadCond`: none of `UNLOADING|SYNCING|SAVING` (nor
`HOT` unless aggressive), `refs == 0`, `lrefs != 0`, cached, share count
0, not a view, and clean (or aggressive with all heaps memory-mapped). -/
theorem C3_unload_condition (vmRoom aggressive : Bool) (s : Slot)
    (_hu : s.status.unloading = false) :
    (decref false false vmRoom s).swap
        = decrefUnloadCond vmRoom (decrefMid s) ∧
    (BBPtrimStep aggressive s).1 = trimUnloadCond aggressive s := by
  constructor
  · show (decref.decrefFinish vmRoom _ _ (decrefMid s)).swap = _
    unfold decref.decrefFinish
    cases h : decrefUnloadCond vmRoom (decrefMid s) <;>
      simp [h] <;> cases hc : (decrefMid s).cache <;> simp [hc] <;> split <;> rfl
  · unfold BBPtrimStep trimUnloadCond
    cases hc : s.cache <;> simp [hc] <;> split <;> simp_all

/-- Witness for C3 (amended) at the concrete slot `c3slot`. -/
theorem C3_unload_condition_witness :
    (decref false false false c3slot).swap
        = decrefUnloadCond false (decrefMid c3slot) ∧
    (BBPtrimStep false c3slot).1 = trimUnloadCond false c3slot :=
  C3_unload_condition false false c3slot rfl

/-- A clean, cold, persistent, loaded, unshared slot with one pin
(counterexample C4). -/
def c4slot : Slot :=
  { refs := 1, lrefs := 0,
    status := { statusClear with persistent := true, existing := true },
    desc := some { sharecnt := 0, tparent := 0, vparent := 0, dirty := false,
                   count := 0, inserted := 0, inmemFarm := false,
                   allMMap := false },
    cached := true, pid := 7 }

/-- C4 counterexample: `BBPkeepref` does *not* skip the unload predicate:
on a clean, cold persistent bat it evaluates the predicate inside its
trailing `decref`, which unloads the bat (`BBPfree`), so the BAT is not
loaded when `keepref` returns, contradicting the claimed guarantee. -/
theorem C4_counterexample :
    c4slot.cached = true ∧ (BBPkeepref true true false c4slot).cached = false := by
  decide

/-- C4 (amended): for a loaded bat (descriptor cached) whose access
downgrade succeeds, `BBPkeepref(i)` is state-equivalent to the sequence
`BBPretain(i); BBPunfix(i)` — including the unload-predicate evaluation of
`unfix`, so the BAT is not guaranteed to still be loaded on return. -/
theorem C4_keepref_eq_retain_unfix (vmRoom : Bool) (s : Slot)
    (hc : s.cached = true) (hd : s.desc.isSome) :
    BBPkeepref true true vmRoom s = retainThenUnfix true vmRoom s := by
  obtain ⟨b, hb⟩ := Option.isSome_iff_exists.mp hd
  unfold BBPkeepref retainThenUnfix incref
  simp [hb, hc]

/-- Witness for C4 (amended) at the concrete slot `c4slot`. -/
theorem C4_keepref_eq_retain_unfix_witness :
    BBPkeepref true true false c4slot = retainThenUnfix true false c4slot :=
  C4_keepref_eq_retain_unfix false c4slot rfl rfl

/-- C10: when a slot has no in-memory descriptor (`BBP_desc(i) == NULL`),
`incref` — for both `BBPfix` (physical) and `BBPretain` (logical) — returns
the failure sentinel 0 and leaves the slot (refs, lrefs, status bits)
unchanged, even though the id passed the `BBPcheck` validity test. -/
theorem C10_incref_no_desc (logical parentLoadOK : Bool) (s : Slot)
    (hdesc : s.desc = none) :
    incref logical true parentLoadOK s = (0, s) := by
  unfold incref
  simp [hdesc]

/-- A valid but descriptor-less slot for the C10 witness. -/
def c10slot : Slot :=
  { refs := 0, lrefs := 1,
    status := { statusClear with persistent := true, existing := true },
    desc := none, cached := false, pid := 0 }

/-- Witness for C10: both `BBPfix` and `BBPretain` fail and change nothing
on the concrete descriptor-less slot `c10slot`. -/
theorem C10_incref_no_desc_witness :
    incref false true true c10slot = (0, c10slot) ∧
    incref true true true c10slot = (0, c10slot) :=
  ⟨C10_incref_no_desc false true c10slot rfl,
   C10_incref_no_desc true true c10slot rfl⟩

end GdkBbp

namespace GdkBbp

namespace Alloc

/-! ## Slot allocation: `BBPextend`, `maybeextend`, `BBPinsert`

The build in this source tree has `BBP_THREADMASK == 0` (one free list,
one cache lock), so the "steal from a long free list" paths of
`maybeextend`/`BBPinsert` are compiled out.  `H` stands for `N_BBPINIT`
and `L` for `BBPINIT` (a power of two; in particular `2 ≤ L`). -/

/-- Slot-allocator state: `BBPsize`, `BBPlimit`, and the single free list:
its head `BBP_free(0)` (0 = empty) and the `BBP_next` links. -/
structure AllocState where
  size : Nat
  limit : Nat
  freeHead : Nat
  next : Nat → Nat

/-- The `while (BBPlimit < newsize) { BBP[..] = GDKzalloc(..); BBPlimit +=
BBPINIT; }` loop of `BBPextend` (block allocation assumed to succeed;
`0 < L` guards termination of the model). -/
def growLimit (L newsize limit : Nat) : Nat :=
  if _h : 0 < L ∧ limit < newsize then growLimit L newsize (limit + L)
  else limit
termination_by newsize - limit
decreasing_by omega

theorem growLimit_eq (L newsize limit : Nat) :
    growLimit L newsize limit =
      if 0 < L ∧ limit < newsize then growLimit L newsize (limit + L)
      else limit := by
  rw [growLimit]
  split <;> simp_all

/-- `BBPextend(idx, buildhash, newsize)`: fails on entry when `newsize`
reaches the hard maximum `H*L` (`N_BBPINIT * BBPINIT`), otherwise commits
blocks until `BBPlimit ≥ newsize` and returns the new `BBPlimit`. -/
def BBPextend (H L newsize limit : Nat) : Option Nat :=
  if newsize ≥ H * L then none else some (growLimit L newsize limit)

/-- `maybeextend(idx)` with `BBP_THREADMASK == 0`: get a fresh entry by
increasing `BBPsize` (after extending when `size == limit`); the new slot
id (the old `BBPsize`) becomes the free-list head. -/
def maybeextend (H L : Nat) (s : AllocState) : Option AllocState :=
  if s.size ≥ s.limit then
    match BBPextend H L (s.size + 1) s.limit with
    | none => none
    | some lim =>
      some { size := s.size + 1, limit := lim, freeHead := s.size,
             next := s.next }
  else
    some { s with size := s.size + 1, freeHead := s.size }

/-- The slot-acquisition part of `BBPinsert`: when the free list is empty
run `maybeextend` (under the name lock); on failure return the sentinel 0
with nothing changed; otherwise pop the free-list head. -/
def BBPinsert (H L : Nat) (s : AllocState) : Nat × AllocState :=
  if s.freeHead = 0 then
    match maybeextend H L s with
    | none => (0, s)
    | some s1 => (s1.freeHead, { s1 with freeHead := s1.next s1.freeHead })
  else (s.freeHead, { s with freeHead := s.next s.freeHead })

/-- `n` consecutive `BBPinsert`s, collecting the returned ids. -/
def allocRun (H L : Nat) : Nat → AllocState → List Nat × AllocState
  | 0, s => ([], s)
  | n + 1, s =>
    let r1 := BBPinsert H L s
    let r2 := allocRun H L n r1.2
    (r1.1 :: r2.1, r2.2)

/-- Allocator state of a freshly initialized database: `BBPinit` reads
`BBPsize = 1` (slot 0 only), calls `BBPextend(0, false, 1)` (committing
the first block) and leaves the free list empty. -/
def initAlloc (L : Nat) : AllocState :=
  { size := 1, limit := growLimit L 1 0, freeHead := 0, next := fun _ => 0 }

/-- Closed form of the allocator state after `k` successful fresh
allocations from `initAlloc`. -/
def stateAfter (L k : Nat) : AllocState :=
  { size := k + 1, limit := L * (k / L + 1), freeHead := 0,
    next := fun _ => 0 }

theorem initAlloc_eq_stateAfter (L : Nat) (hL : 1 ≤ L) :
    initAlloc L = stateAfter L 0 := by
  unfold initAlloc stateAfter
  rw [growLimit_eq, if_pos ⟨hL, Nat.zero_lt_one⟩, growLimit_eq, if_neg]
  · simp
  · omega

end Alloc

end GdkBbp

namespace GdkBbp

namespace Alloc

theorem BBPinsert_stateAfter (H L k : Nat) (hL : 2 ≤ L)
    (hk : k + 2 ≤ H * L) :
    BBPinsert H L (stateAfter L k) = (k + 1, stateAfter L (k + 1)) := by
  have hL0 : 0 < L := by omega
  have hdm : L * (k / L) + k % L = k := Nat.div_add_mod k L
  have hmlt : k % L < L := Nat.mod_lt _ hL0
  by_cases hmod : k % L = L - 1
  · -- size == limit: BBPextend commits one more block
    have hsz : L * (k / L + 1) = k + 1 := by rw [Nat.mul_succ]; omega
    have hdiv1 : (k + 1) / L = k / L + 1 := by
      rw [← hsz, Nat.mul_div_cancel_left _ hL0]
    have hne : k + 2 < H * L := by
      rcases Nat.lt_or_ge (k + 2) (H * L) with h | h
      · exact h
      · exfalso
        have heq : L * (k / L + 1) + 1 = H * L := by omega
        have hdvd : L ∣ 1 :=
          (Nat.dvd_add_right (dvd_mul_right L (k / L + 1))).mp
            (heq ▸ dvd_mul_left L H)
        have := Nat.dvd_one.mp hdvd
        omega
    have hgrow : growLimit L (k + 2) (L * (k / L + 1)) = k + 1 + L := by
      rw [hsz, growLimit_eq, if_pos ⟨hL0, by omega⟩, growLimit_eq, if_neg]
      omega
    unfold BBPinsert stateAfter maybeextend BBPextend
    dsimp only
    rw [if_pos rfl, if_pos (by omega : k + 1 ≥ L * (k / L + 1)),
        if_neg (by omega : ¬ k + 1 + 1 ≥ H * L)]
    dsimp only
    rw [hgrow, hdiv1, Nat.mul_succ, hsz]
  · -- size < limit: no extension needed
    have hlt : k + 1 < L * (k / L + 1) := by rw [Nat.mul_succ]; omega
    have hdiv1 : (k + 1) / L = k / L := by
      conv_lhs => rw [show k + 1 = L * (k / L) + (k % L + 1) by omega]
      rw [Nat.mul_add_div hL0,
          show (k % L + 1) / L = 0 from Nat.div_eq_of_lt (by omega)]
      omega
    unfold BBPinsert stateAfter maybeextend
    dsimp only
    rw [if_pos rfl, if_neg (by omega : ¬ k + 1 ≥ L * (k / L + 1))]
    dsimp only
    rw [hdiv1]

theorem BBPinsert_fail (H L : Nat) (hL : 2 ≤ L) (hH : 1 ≤ H) :
    BBPinsert H L (stateAfter L (H * L - 1))
      = (0, stateAfter L (H * L - 1)) := by
  have hL0 : 0 < L := by omega
  obtain ⟨H1, rfl⟩ : ∃ H1, H = H1 + 1 := ⟨H - 1, by omega⟩
  have hmul : (H1 + 1) * L = H1 * L + L := Nat.succ_mul H1 L
  have hdiv : ((H1 + 1) * L - 1) / L = H1 := by
    rw [show (H1 + 1) * L - 1 = L * H1 + (L - 1) by
          rw [hmul, Nat.mul_comm]; omega,
        Nat.mul_add_div hL0,
        show (L - 1) / L = 0 from Nat.div_eq_of_lt (by omega)]
    omega
  have hlim : L * (((H1 + 1) * L - 1) / L + 1) = (H1 + 1) * L := by
    rw [hdiv, Nat.mul_succ, Nat.mul_comm, ← hmul]
  unfold BBPinsert stateAfter maybeextend BBPextend
  dsimp only
  rw [if_pos rfl, if_pos (by omega : (H1 + 1) * L - 1 + 1 ≥
        L * (((H1 + 1) * L - 1) / L + 1)),
      if_pos (by omega : (H1 + 1) * L - 1 + 1 + 1 ≥ (H1 + 1) * L)]

theorem allocRun_stateAfter (H L : Nat) (hL : 2 ≤ L) (n k : Nat)
    (hn : k + n + 1 ≤ H * L) :
    allocRun H L n (stateAfter L k)
      = (List.range' (k + 1) n, stateAfter L (k + n)) := by
  induction n generalizing k with
  | zero => simp [allocRun, List.range']
  | succ n ih =>
    rw [allocRun, BBPinsert_stateAfter H L k hL (by omega)]
    simp only [ih (k + 1) (by omega), List.range'_succ]
    rw [show k + 1 + n = k + (n + 1) by omega]

theorem allocRun_add (H L m n : Nat) (s : AllocState) :
    allocRun H L (m + n) s
      = ((allocRun H L m s).1 ++ (allocRun H L n (allocRun H L m s).2).1,
         (allocRun H L n (allocRun H L m s).2).2) := by
  induction m generalizing s with
  | zero => simp [allocRun]
  | succ m ih =>
    rw [show m + 1 + n = m + n + 1 by omega, allocRun, allocRun, ih]
    simp

end Alloc

open Alloc

/-- C5 counterexample: with `H = N_BBPINIT = 2` and `L = BBPINIT = 4`
(so `H*L = 8`), running 8 allocations from a fresh pool does *not*
produce 8 successes: the 8th `BBPinsert` already returns the failure
sentinel 0 (slot 0 is reserved and `BBPextend` fails as soon as
`newsize >= H*L`), while the claim promises `H*L` successes with the
`(H*L+1)`-th failing. -/
theorem C5_counterexample :
    (allocRun 2 4 8 (initAlloc 4)).1 = [1, 2, 3, 4, 5, 6, 7, 0] := by
  have h7 : allocRun 2 4 7 (stateAfter 4 0)
      = (List.range' 1 7, stateAfter 4 7) := by
    simpa using allocRun_stateAfter 2 4 (by norm_num) 7 0 (by norm_num)
  rw [initAlloc_eq_stateAfter 4 (by norm_num),
      show (8 : Nat) = 7 + 1 from rfl, allocRun_add, h7,
      allocRun, BBPinsert_fail 2 4 (by norm_num) (by norm_num)]
  simp [allocRun]
  decide

/-- C5 (amended): starting from a fresh pool, the first `H*L − 1` fresh
slot allocations succeed, yielding exactly the ids `1 .. H*L−1` (slot 0
is reserved), and the `(H*L)`-th allocation fails cleanly: `BBPinsert`
returns the sentinel 0 and the allocator state (`BBPsize`, `BBPlimit`,
free list) is unchanged, because `BBPextend` rejects `newsize >= H*L` on
entry. -/
theorem C5_alloc_bound (H L : Nat) (hL : 2 ≤ L) (hH : 1 ≤ H) :
    (allocRun H L (H * L - 1) (initAlloc L)).1 = List.range' 1 (H * L - 1) ∧
    (∀ i ∈ (allocRun H L (H * L - 1) (initAlloc L)).1, i ≠ 0) ∧
    BBPinsert H L (allocRun H L (H * L - 1) (initAlloc L)).2
      = (0, (allocRun H L (H * L - 1) (initAlloc L)).2) := by
  have hHL : 2 ≤ H * L := le_trans hL (Nat.le_mul_of_pos_left L hH)
  have h1 : allocRun H L (H * L - 1) (initAlloc L)
      = (List.range' 1 (H * L - 1), stateAfter L (H * L - 1)) := by
    rw [initAlloc_eq_stateAfter L (by omega)]
    have := allocRun_stateAfter H L hL (H * L - 1) 0 (by omega)
    simpa using this
  refine ⟨by rw [h1], ?_, ?_⟩
  · rw [h1]
    intro i hi
    have := List.mem_range'_1.mp hi
    omega
  · rw [h1]
    exact BBPinsert_fail H L hL hH

/-- Witness for C5 (amended) at `H = 2`, `L = 4`. -/
theorem C5_alloc_bound_witness :
    (allocRun 2 4 7 (initAlloc 4)).1 = List.range' 1 7 ∧
    (∀ i ∈ (allocRun 2 4 7 (initAlloc 4)).1, i ≠ 0) ∧
    BBPinsert 2 4 (allocRun 2 4 7 (initAlloc 4)).2
      = (0, (allocRun 2 4 7 (initAlloc 4)).2) := by
  have := C5_alloc_bound 2 4 (by norm_num) (by norm_num)
  simpa using this

end GdkBbp

namespace GdkBbp

namespace DirHeader

/-! ## `BBP.dir` header codec: `BBPheader`

The reader of the four header lines.  The `fgets`/`sscanf` outcomes are
explicit fields (a line that is missing or fails to parse is a `false`
flag); the compile-time constants of the running engine (`GDKLIBRARY`,
`GDKLIBRARY_TAILN`, `GDKLIBRARY_MINMAX_POS`, `SIZEOF_SIZE_T`,
`SIZEOF_OID`, `SIZEOF_MAX_INT`) are the fields of `Engine`. -/

structure Engine where
  gdklibrary : Nat
  gdklibraryTailn : Nat
  gdklibraryMinmaxPos : Nat
  sizeofSizeT : Int
  sizeofOid : Int
  sizeofMaxInt : Int
deriving DecidableEq, Repr

structure HeaderInput where
  l1ok : Bool            -- first fgets succeeded
  versionOK : Bool       -- sscanf "BBP.dir, GDKversion %u" matched
  bbpversion : Nat
  l2ok : Bool
  sizesOK : Bool         -- sscanf "%d %d %d" matched three ints
  ptrsize : Int
  oidsize : Int
  intsize : Int
  l3ok : Bool
  szOK : Bool            -- sscanf "BBPsize=%d" matched
  sz : Int
  l4ok : Bool
  infoOK : Bool          -- sscanf "BBPinfo=..." matched two lngs
  logno : Int
  transid : Int
deriving DecidableEq, Repr

/-- `BBPheader(fp, ...)`: returns the accepted version, or 0 on rejection
(each rejection is accompanied by a critical/readable error message in the
C code). -/
def BBPheader (e : Engine) (h : HeaderInput) : Nat :=
  if !h.l1ok then 0
  else if !h.versionOK then 0
  else if h.bbpversion ≠ e.gdklibrary ∧ h.bbpversion ≠ e.gdklibraryTailn ∧
      h.bbpversion ≠ e.gdklibraryMinmaxPos then 0
  else if !h.l2ok then 0
  else if !h.sizesOK then 0
  else if h.ptrsize ≠ e.sizeofSizeT ∨ h.oidsize ≠ e.sizeofOid then 0
  else if h.intsize > e.sizeofMaxInt then 0
  else if !h.l3ok then 0
  else if !h.szOK then 0
  else if h.bbpversion > e.gdklibraryMinmaxPos then
    if !h.l4ok then 0
    else if !h.infoOK then 0
    else h.bbpversion
  else h.bbpversion

end DirHeader

open DirHeader

/-- C7: for a syntactically well-formed header (all four lines present and
parsing), `BBPheader` accepts (returns a nonzero version) iff the version
tag is one of exactly three — the current `GDKLIBRARY`, `TAILN`, or
`MINMAX_POS` — and the recorded pointer size and OID size equal the
running engine's and the recorded max-int size is not larger than
supported; every other header is rejected. -/
theorem C7_header_acceptance (e : Engine) (h : HeaderInput)
    (hv : 0 < e.gdklibrary ∧ 0 < e.gdklibraryTailn ∧ 0 < e.gdklibraryMinmaxPos)
    (hl : h.l1ok = true ∧ h.versionOK = true ∧ h.l2ok = true ∧
          h.sizesOK = true ∧ h.l3ok = true ∧ h.szOK = true ∧
          h.l4ok = true ∧ h.infoOK = true) :
    BBPheader e h ≠ 0 ↔
      ((h.bbpversion = e.gdklibrary ∨ h.bbpversion = e.gdklibraryTailn ∨
        h.bbpversion = e.gdklibraryMinmaxPos) ∧
       h.ptrsize = e.sizeofSizeT ∧ h.oidsize = e.sizeofOid ∧
       h.intsize ≤ e.sizeofMaxInt) := by
  obtain ⟨h1, h2, h3, h4, h5, h6, h7, h8⟩ := hl
  unfold BBPheader
  rw [h1, h2, h3, h4, h5, h6, h7, h8]
  simp only [Bool.not_true, Bool.false_eq_true, if_false]
  split_ifs with hver hsz hint hgt
  · simp [hver.1, hver.2.1, hver.2.2]
  · constructor
    · intro hx; exact absurd rfl hx
    · rintro ⟨-, hp, ho, -⟩
      rcases hsz with hh | hh
      exacts [(hh hp).elim, (hh ho).elim]
  · constructor
    · intro hx; exact absurd rfl hx
    · rintro ⟨-, -, -, hle⟩
      omega
  · have hd : h.bbpversion = e.gdklibrary ∨ h.bbpversion = e.gdklibraryTailn ∨
        h.bbpversion = e.gdklibraryMinmaxPos := by tauto
    constructor
    · intro _
      exact ⟨hd, by tauto, by tauto, by omega⟩
    · intro _
      rcases hd with hh | hh | hh <;> omega
  · have hd : h.bbpversion = e.gdklibrary ∨ h.bbpversion = e.gdklibraryTailn ∨
        h.bbpversion = e.gdklibraryMinmaxPos := by tauto
    constructor
    · intro _
      exact ⟨hd, by tauto, by tauto, by omega⟩
    · intro _
      rcases hd with hh | hh | hh <;> omega

/-- Witness for C7: a well-formed current-version header with matching
sizes is accepted. -/
theorem C7_header_acceptance_witness :
    BBPheader ⟨061046, 061044, 061045, 8, 8, 16⟩
        ⟨true, true, 061046, true, true, 8, 8, 16, true, true, 100,
         true, true, 5, 7⟩ ≠ 0 ↔
      (((061046 : Nat) = 061046 ∨ (061046 : Nat) = 061044 ∨
        (061046 : Nat) = 061045) ∧
       (8 : Int) = 8 ∧ (8 : Int) = 8 ∧ (16 : Int) ≤ 16) :=
  C7_header_acceptance ⟨061046, 061044, 061045, 8, 8, 16⟩
    ⟨true, true, 061046, true, true, 8, 8, 16, true, true, 100,
     true, true, 5, 7⟩
    (by norm_num) (by norm_num)

end GdkBbp

namespace GdkBbp

namespace Commit

/-! ## Commit protocol: `BBPsync`

The phases of `BBPsync(cnt, subcommit, sizes, logno, transid)` are
modelled at the granularity the claims need: the per-id staging work of
phase 1 (`BBPbackup`/`dirty_bat`/`file_move`) and the catalog writing of
phases 2–3 (`BBPdir_first`/`BBPdir_step`/`BBPdir_last`, `BATsave_iter`)
are abstracted into Boolean outcomes, while the `BBPSYNCING` status-bit
bookkeeping and the atomic-switchover rename sequence are modelled
faithfully.  `ids idx` is the commit set (`subcommit[idx]`, or `idx`
itself for a full commit); indices run from 1 to `cnt - 1` as in the C
loops. -/

/-- Outcomes of the external operations of one `BBPsync` call. -/
structure SyncEnv where
  pathsOK : Bool        -- the two initial GDKfilepath allocations
  prepareOK : Bool      -- BBPprepare(subcommit)
  stage : Nat → Bool    -- phase-1 staging of commit index idx succeeded
  dirOK : Bool          -- phases 2-3: new BBP.dir written and bats saved
  rename1 : Bool        -- first MT_rename(bakdir, deldir)
  removedel : Bool      -- GDKremovedir(0, DELDIR) between the attempts
  rename2 : Bool        -- second MT_rename(bakdir, deldir)
  removedel2 : Bool     -- aftermath GDKremovedir(0, DELDIR)
  prepare2 : Bool       -- aftermath BBPprepare(false)

/-- Result of the modelled `BBPsync`: success flag, the per-id `SYNCING`
bits, how many rename attempts the switchover made and whether an
attempted rename succeeded. -/
structure SyncRes where
  ok : Bool
  syncing : Nat → Bool
  renameAttempts : Nat
  renameSucceeded : Bool

/-- Phase 1 loop body `while (++idx < cnt)`: set `BBPSYNCING` on the id,
then stage its dirty heaps into the backup directory; on a staging
failure break out (the remaining ids are not marked). -/
def phase1 (stage : Nat → Bool) (ids : Nat → Nat) :
    Nat → Nat → (Nat → Bool) → ((Nat → Bool) × Bool)
  | _, 0, sy => (sy, true)
  | idx, rem + 1, sy =>
    let sy1 : Nat → Bool := fun j => if j = ids idx then true else sy j
    if stage idx then phase1 stage ids (idx + 1) rem sy1 else (sy1, false)

/-- The bailout loop: `BBP_status_off(i, BBPSYNCING)` for every commit
index, run unconditionally before returning. -/
def clearSyncing (ids : Nat → Nat) :
    Nat → Nat → (Nat → Bool) → (Nat → Bool)
  | _, 0, sy => sy
  | idx, rem + 1, sy =>
    clearSyncing ids (idx + 1) rem (fun j => if j = ids idx then false else sy j)

/-- `BBPsync`: prepare, stage (phase 1), save and write the new catalog
(phases 2-3), the atomic switchover (`MT_rename(bakdir, deldir)`, retried
once after removing a stale `DELDIR`), the aftermath (remove `DELDIR`,
recreate `BAKDIR`; failures there are only logged), and the bailout that
clears `BBPSYNCING` on all commit ids.  `syncing0` is the initial
`BBPSYNCING` bit per id. -/
def BBPsync (env : SyncEnv) (cnt : Nat) (ids : Nat → Nat)
    (syncing0 : Nat → Bool) : SyncRes :=
  -- if (!(bakdir = GDKfilepath(...))) return GDK_FAIL;  (before any work)
  if !env.pathsOK then
    { ok := false, syncing := syncing0, renameAttempts := 0,
      renameSucceeded := false }
  else
    let ret1 := env.prepareOK
    -- PHASE 1: safeguard everything in a backup-dir
    let p1 := if ret1 then phase1 env.stage ids 1 (cnt - 1) syncing0
              else (syncing0, ret1)
    let sy1 := p1.1
    let ret2 := p1.2
    -- PHASE 2: save the repository and write new BBP.dir file
    let ret3 := ret2 && env.dirOK
    -- atomic switchover: "this call determines whether the operation of
    -- this function succeeded, so no changing of ret after this call"
    let swp : Bool × Nat × Bool :=
      if ret3 then
        if env.rename1 then (true, 1, true)
        else if env.removedel then
          if env.rename2 then (true, 2, true) else (false, 2, false)
        else (false, 1, false)
      else (ret3, 0, false)
    let ret4 := swp.1
    -- AFTERMATH: update logno/transid, remove DELDIR, fresh BAKDIR; the
    -- results of removedel2/prepare2 are logged but do not change ret4
    -- bailout: turn off the BBPSYNCING bits for all bats, even when
    -- things did not go according to plan
    { ok := ret4, syncing := clearSyncing ids 1 (cnt - 1) sy1,
      renameAttempts := swp.2.1, renameSucceeded := swp.2.2 }

theorem clearSyncing_of_cleared (ids : Nat → Nat) (idx rem : Nat)
    (sy : Nat → Bool) (j : Nat) (hj : sy j = false) :
    clearSyncing ids idx rem sy j = false := by
  induction rem generalizing idx sy with
  | zero => exact hj
  | succ rem ih =>
    rw [clearSyncing]
    exact ih (idx + 1) _ (by by_cases h : j = ids idx <;> simp [h, hj])

theorem clearSyncing_mem (ids : Nat → Nat) (idx rem : Nat)
    (sy : Nat → Bool) (m : Nat) (h1 : idx ≤ m) (h2 : m < idx + rem) :
    clearSyncing ids idx rem sy (ids m) = false := by
  induction rem generalizing idx sy with
  | zero => omega
  | succ rem ih =>
    rw [clearSyncing]
    by_cases hm : m = idx
    · exact clearSyncing_of_cleared ids (idx + 1) rem _ (ids m)
        (by simp [hm])
    · exact ih (idx + 1) _ (by omega) (by omega)

theorem phase1_all_ok (stage : Nat → Bool) (ids : Nat → Nat)
    (idx rem : Nat) (sy : Nat → Bool)
    (h : ∀ k, idx ≤ k → k < idx + rem → stage k = true) :
    (phase1 stage ids idx rem sy).2 = true := by
  induction rem generalizing idx sy with
  | zero => rfl
  | succ rem ih =>
    rw [phase1]
    rw [h idx (le_refl idx) (by omega)]
    exact ih (idx + 1) _ (fun k hk1 hk2 => h k (by omega) (by omega))

end Commit

open Commit

/-- C2: on every exit path of `BBPsync` — success or failure at any
phase — the `SYNCING` status bit is off for every id of the commit set
(`ids 1 .. ids (cnt-1)`) when the call returns, provided it was off when
the call started (the bit is owned by the commit protocol, which runs
under the TM lock). -/
theorem C2_syncing_cleared (env : SyncEnv) (cnt : Nat) (ids : Nat → Nat)
    (syncing0 : Nat → Bool)
    (h0 : ∀ k, 1 ≤ k → k < cnt → syncing0 (ids k) = false) :
    ∀ k, 1 ≤ k → k < cnt →
      (BBPsync env cnt ids syncing0).syncing (ids k) = false := by
  intro k hk1 hk2
  unfold BBPsync
  by_cases hp : env.pathsOK
  · simp only [hp, Bool.not_true, Bool.false_eq_true, if_false]
    exact clearSyncing_mem ids 1 (cnt - 1) _ k hk1 (by omega)
  · simp only [Bool.not_eq_true'] at hp
    simp only [hp, Bool.not_false, if_true]
    exact h0 k hk1 hk2

/-- Witness for C2: a concrete 3-id commit (ids 10, 20, 30) with staging
failing at index 2, starting with all `SYNCING` bits off. -/
theorem C2_syncing_cleared_witness :
    (BBPsync ⟨true, true, fun i => i ≠ 2, false, false, true, true,
              true, true⟩ 4 (fun i => 10 * i) (fun _ => false)).syncing 20
      = false :=
  C2_syncing_cleared _ 4 (fun i => 10 * i) (fun _ => false)
    (fun _ _ _ => rfl) 2 (by norm_num) (by norm_num)

/-- C1: when a `BBPsync` call reaches the atomic switchover (path
allocations, prepare, all staging and the catalog write succeeded), it
renames the backup directory to `DELDIR`; if that rename fails it removes
the (stale) `DELDIR` and retries the rename exactly once (never more than
two attempts); the call returns success iff one of the attempted renames
succeeded, and nothing after the switchover (the aftermath `GDKremovedir`
and `BBPprepare`, in `removedel2`/`prepare2`) changes the result. -/
theorem C1_switchover (env : SyncEnv) (cnt : Nat) (ids : Nat → Nat)
    (syncing0 : Nat → Bool)
    (hpaths : env.pathsOK = true) (hprep : env.prepareOK = true)
    (hstage : ∀ k, 1 ≤ k → k < cnt → env.stage k = true)
    (hdir : env.dirOK = true) :
    (BBPsync env cnt ids syncing0).ok
        = (env.rename1 || (env.removedel && env.rename2)) ∧
    (BBPsync env cnt ids syncing0).renameAttempts ≤ 2 ∧
    ((BBPsync env cnt ids syncing0).ok
        = (BBPsync env cnt ids syncing0).renameSucceeded) ∧
    (∀ v w, (BBPsync { env with removedel2 := v, prepare2 := w }
        cnt ids syncing0).ok = (BBPsync env cnt ids syncing0).ok) := by
  have hph : (phase1 env.stage ids 1 (cnt - 1) syncing0).2 = true :=
    phase1_all_ok env.stage ids 1 (cnt - 1) syncing0
      (fun k hk1 hk2 => hstage k hk1 (by omega))
  unfold BBPsync
  simp only [hpaths, hprep, hdir, Bool.not_true, Bool.false_eq_true,
    if_false, if_true, hph, Bool.true_and, Bool.and_true]
  cases h1 : env.rename1 <;> cases h2 : env.removedel <;>
    cases h3 : env.rename2 <;> simp

/-- Witness for C1: the first rename fails, the stale `DELDIR` removal
and the retried rename succeed, so the commit succeeds on the second of
two attempts, independently of the aftermath outcomes. -/
theorem C1_switchover_witness :
    (BBPsync ⟨true, true, fun _ => true, true, false, true, true,
              false, false⟩ 3 (fun i => i) (fun _ => false)).ok
        = (false || (true && true)) ∧
    (BBPsync ⟨true, true, fun _ => true, true, false, true, true,
              false, false⟩ 3 (fun i => i) (fun _ => false)).renameAttempts ≤ 2 ∧
    ((BBPsync ⟨true, true, fun _ => true, true, false, true, true,
              false, false⟩ 3 (fun i => i) (fun _ => false)).ok
        = (BBPsync ⟨true, true, fun _ => true, true, false, true, true,
              false, false⟩ 3 (fun i => i) (fun _ => false)).renameSucceeded) ∧
    (∀ v w, (BBPsync ⟨true, true, fun _ => true, true, false, true, true,
              v, w⟩ 3 (fun i => i) (fun _ => false)).ok
        = (BBPsync ⟨true, true, fun _ => true, true, false, true, true,
              false, false⟩ 3 (fun i => i) (fun _ => false)).ok) :=
  C1_switchover ⟨true, true, fun _ => true, true, false, true, true,
    false, false⟩ 3 (fun i => i) (fun _ => false) rfl rfl
    (fun _ _ _ => rfl) rfl

end GdkBbp

namespace GdkBbp

namespace Names

/-! ## Name index: `BBPtmpcheck`, `BBPnamecheck`, `BBP_find`,
`BBP_insert`, `BBP_delete`, `BBPinithash`, `BBPrename`

Logical names are lists of characters.  The string hash `strHash` is
defined outside this file (gdk.h) and is passed in as a function; the
bucket index `strHash(nme) & BBP_mask` is modelled as
`strHash nme % (mask + 1)` (the mask is one less than a power of two).
The bucket-count tuning of `BBPinithash` (`BBP_mask` sizing from
`BBPlimit`) only changes which bucket a name lands in, which is already
absorbed by the abstract hash, so `mask` is carried unchanged.  Bucket
chains are finite in the implementation (each slot occurs at most once);
the chain walks take `size` as fuel. -/

abbrev Name := List Char

/-- The characters of `"tmp_"`. -/
def tmpTag : Name := ['t', 'm', 'p', '_']

/-- `startsW p s`: `s` begins with `p` (`strncmp(s, p, |p|) == 0`). -/
def startsW : Name → Name → Bool
  | [], _ => true
  | _ :: _, [] => false
  | p :: ps, c :: cs => p = c && startsW ps cs

/-- `BBPtmpcheck(s)`: `strncmp(s, "tmp_", 4) == 0`. -/
def BBPtmpcheck (s : Name) : Bool := startsW tmpTag s

/-- Is `c` an octal digit? -/
def octDigit (c : Char) : Bool := '0' ≤ c && c ≤ '7'

/-- `strtol(s, NULL, 8)` restricted to the name alphabet: accumulate the
maximal leading run of octal digits (names never carry the
whitespace/sign forms of strtol). -/
def strtolOct : Name → Nat → Nat
  | [], acc => acc
  | c :: cs, acc =>
    if octDigit c then strtolOct cs (acc * 8 + (c.toNat - 48)) else acc

/-- `BBPnamecheck(s)`: the octal value after a `tmp_` tag, 0 otherwise. -/
def BBPnamecheck (s : Name) : Nat :=
  if BBPtmpcheck s then strtolOct (s.drop 4) 0 else 0

/-- Name-index state: `BBPsize`, the per-slot logical names, the hash
bucket heads (`BBP_hash`), the `BBP_next` chain links, the free-list head
and `BBP_mask`. -/
structure NState where
  size : Nat
  logical : Nat → Option Name
  hashHead : Nat → Nat
  next : Nat → Nat
  free : Nat
  mask : Nat

/-- `BBP_insert(i)`: push slot `i` onto its name's bucket. -/
def BBP_insert (strHash : Name → Nat) (st : NState) (i : Nat) : NState :=
  match st.logical i with
  | some s =>
    let idx := strHash s % (st.mask + 1)
    { st with
      next := fun j => if j = i then st.hashHead idx else st.next j,
      hashHead := fun b => if b = idx then i else st.hashHead b }
  | none => st

/-- The unlink walk of `BBP_delete`: remove the first slot in the chain
whose logical name equals `s`; returns the new chain head together with
the updated `next` map. -/
def deleteChain (logical : Nat → Option Name) (s : Name) :
    Nat → (Nat → Nat) → Nat → Nat × (Nat → Nat)
  | 0, next, head => (head, next)
  | fuel + 1, next, head =>
    if head = 0 then (0, next)
    else if logical head = some s then (next head, next)
    else
      let r := deleteChain logical s fuel next (next head)
      (head, fun j => if j = head then r.1 else r.2 j)

/-- `BBP_delete(i)`: unlink slot `i` (by its current name) from its
bucket. -/
def BBP_delete (strHash : Name → Nat) (st : NState) (i : Nat) : NState :=
  match st.logical i with
  | some s =>
    let idx := strHash s % (st.mask + 1)
    let r := deleteChain st.logical s st.size st.next (st.hashHead idx)
    { st with
      hashHead := fun b => if b = idx then r.1 else st.hashHead b,
      next := r.2 }
  | none => st

/-- The bucket walk of `BBP_find`: first chain slot with the wanted name,
0 when the chain ends. -/
def findChain (logical : Nat → Option Name) (next : Nat → Nat) (s : Name) :
    Nat → Nat → Nat
  | 0, i => i
  | fuel + 1, i =>
    if i = 0 then 0
    else if logical i = some s then i
    else findChain logical next s fuel (next i)

/-- `BBP_find` result: the slot id (0 = not found) and whether the hash
array was consulted. -/
structure FindOut where
  result : Nat
  hashTouched : Bool
deriving DecidableEq, Repr

/-- `BBP_find(nme, lock)`: for `tmp_X` names the id is decoded from the
name itself and only that slot's name is compared; otherwise (unless the
name starts with `.`) the bucket chain is walked. -/
def BBP_find (strHash : Name → Nat) (st : NState) (nme : Name) : FindOut :=
  let i := BBPnamecheck nme
  if i ≠ 0 then
    -- for tmp_X BATs, we already know X
    { result :=
        if i ≥ st.size ∨ st.logical i = none ∨ st.logical i ≠ some nme
        then 0 else i,
      hashTouched := false }
  else if ¬ startsW ['.'] nme then
    -- must lock since hash-lookup traverses other BATs
    { result := findChain st.logical st.next nme st.size
        (st.hashHead (strHash nme % (st.mask + 1))),
      hashTouched := true }
  else
    { result := 0, hashTouched := false }

/-- One iteration of the `while (--size > 0)` loop of `BBPinithash` for
slot `i`: index a named, non-dot, non-`tmp_` slot; push an unnamed slot
onto the free list.  Also returns the (0- or 1-element) list of slot ids
passed to `BBP_insert`. -/
def inithashStep (strHash : Name → Nat) (i : Nat) (st : NState) :
    NState × List Nat :=
  match st.logical i with
  | some s =>
    if ¬ startsW ['.'] s ∧ ¬ BBPtmpcheck s then
      (BBP_insert strHash st i, [i])
    else (st, [])
  | none =>
    ({ st with
       next := fun j => if j = i then st.free else st.next j,
       free := i }, [])

/-- The `while (--size > 0)` loop of `BBPinithash`, visiting slots
`k, k-1, ..., 1`. -/
def inithashLoop (strHash : Name → Nat) : Nat → NState → NState × List Nat
  | 0, st => (st, [])
  | k + 1, st =>
    let step := inithashStep strHash (k + 1) st
    let r := inithashLoop strHash k step.1
    (r.1, step.2 ++ r.2)

/-- `BBPinithash(j, size)`: rebuild the hash over slots `size-1 .. 1`
from an empty bucket array. -/
def BBPinithash (strHash : Name → Nat) (st : NState) : NState × List Nat :=
  inithashLoop strHash (st.size - 1) { st with hashHead := fun _ => 0 }

inductive RenameRes
  | ok
  | illegal
  | already
deriving DecidableEq, Repr

/-- `BBPrename` result: the return code, the new state, and whether
`BBP_insert` was executed for the new name. -/
structure RenameOut where
  res : RenameRes
  st : NState
  inserted : Bool

/-- `BBPrename(bid, nme)` (name-index part; the descriptor lookup, the
`IDLENGTH` length check and the `BBPRENAMED` status bit concern other
components): reject `tmp_X` names for `X ≠ bid`; reject names in use;
unlink the old name (unless it was a `tmp_` default); set the new name;
index it unless `BBPnamecheck` decoded a nonzero id from it. -/
def BBPrename (strHash : Name → Nat) (st : NState) (bid : Nat) (nme : Name) :
    RenameOut :=
  -- If name stays same, do nothing
  if st.logical bid = some nme then ⟨.ok, st, false⟩
  else
    let tmpid := BBPnamecheck nme
    if tmpid ≠ 0 ∧ tmpid ≠ bid then ⟨.illegal, st, false⟩
    else if (BBP_find strHash st nme).result ≠ 0 then ⟨.already, st, false⟩
    else
      -- carry through the name change
      let st1 :=
        match st.logical bid with
        | some old => if ¬ BBPtmpcheck old then BBP_delete strHash st bid
                      else st
        | none => st
      let st2 := { st1 with
        logical := fun j => if j = bid then some nme else st1.logical j }
      if tmpid = 0 then ⟨.ok, BBP_insert strHash st2 bid, true⟩
      else ⟨.ok, st2, false⟩

end Names

end GdkBbp

namespace GdkBbp

namespace Names

theorem startsW_append (p r : Name) : startsW p (p ++ r) = true := by
  induction p with
  | nil => rfl
  | cons c cs ih => simp [startsW, ih]

theorem namecheck_tmp (ds : Name) :
    BBPnamecheck (tmpTag ++ ds) = strtolOct ds 0 := by
  unfold BBPnamecheck BBPtmpcheck
  rw [startsW_append, if_pos rfl]
  rfl

theorem inithashStep_logical (strHash : Name → Nat) (i : Nat) (st : NState) :
    (inithashStep strHash i st).1.logical = st.logical := by
  unfold inithashStep
  cases h : st.logical i with
  | none => rfl
  | some s =>
    dsimp only
    split
    · simp [BBP_insert, h]
    · rfl

theorem inithashStep_inserted (strHash : Name → Nat) (i : Nat) (st : NState)
    (j : Nat) (hj : j ∈ (inithashStep strHash i st).2) :
    ∃ s, st.logical j = some s ∧ BBPtmpcheck s = false := by
  unfold inithashStep at hj
  cases h : st.logical i with
  | none => rw [h] at hj; simp at hj
  | some s =>
    rw [h] at hj
    dsimp only at hj
    split at hj
    · next hcond =>
      simp only [List.mem_singleton] at hj
      subst hj
      exact ⟨s, h, by simpa using hcond.2⟩
    · simp at hj

theorem inithashLoop_inserted (strHash : Name → Nat) (k : Nat) (st : NState)
    (j : Nat) (hj : j ∈ (inithashLoop strHash k st).2) :
    ∃ s, st.logical j = some s ∧ BBPtmpcheck s = false := by
  induction k generalizing st with
  | zero => simp [inithashLoop] at hj
  | succ k ih =>
    rw [inithashLoop] at hj
    dsimp only at hj
    rcases List.mem_append.mp hj with h1 | h2
    · exact inithashStep_inserted strHash (k + 1) st j h1
    · have := ih (inithashStep strHash (k + 1) st).1 h2
      rwa [inithashStep_logical] at this

theorem BBP_find_tmp (strHash : Name → Nat) (st : NState) (ds : Name)
    (h1 : 1 ≤ strtolOct ds 0) :
    BBP_find strHash st (tmpTag ++ ds)
      = { result :=
            if strtolOct ds 0 < st.size ∧
               st.logical (strtolOct ds 0) = some (tmpTag ++ ds)
            then strtolOct ds 0 else 0,
          hashTouched := false } := by
  unfold BBP_find
  rw [namecheck_tmp]
  rw [if_pos (by omega : strtolOct ds 0 ≠ 0)]
  rcases Nat.lt_or_ge (strtolOct ds 0) st.size with hlt | hge
  · by_cases heq : st.logical (strtolOct ds 0) = some (tmpTag ++ ds)
    · rw [if_neg, if_pos ⟨hlt, heq⟩]
      push_neg
      exact ⟨by omega, by simp [heq], by simp [heq]⟩
    · rw [if_pos (Or.inr (Or.inr heq)), if_neg (fun hc => heq hc.2)]
  · rw [if_pos (Or.inl hge), if_neg (fun hc => by omega)]

theorem BBPrename_tmp_no_insert (strHash : Name → Nat) (st : NState)
    (bid : Nat) (ds : Name) (h1 : 1 ≤ strtolOct ds 0) :
    (BBPrename strHash st bid (tmpTag ++ ds)).inserted = false := by
  simp only [BBPrename, namecheck_tmp]
  split_ifs <;> first | rfl | omega

theorem BBPrename_tmp_illegal (strHash : Name → Nat) (st : NState)
    (bid : Nat) (ds : Name) (h1 : 1 ≤ strtolOct ds 0)
    (hcur : st.logical bid ≠ some (tmpTag ++ ds))
    (hbid : strtolOct ds 0 ≠ bid) :
    (BBPrename strHash st bid (tmpTag ++ ds)).res = RenameRes.illegal := by
  simp only [BBPrename, namecheck_tmp]
  rw [if_neg hcur, if_pos ⟨by omega, hbid⟩]

end Names

open Names

/-- C6 (amended): for every logical name of the form `tmp_<octal>` whose
octal value `X` is nonzero (names generated by the pool always decode the
slot id, which is positive): (1) an index rebuild (`BBPinithash`) never
inserts a slot bearing that name into the name hash; (2) a rename to that
name never inserts it either — and is rejected as an illegal temporary
name whenever `X` is not the renamed bat itself; (3) a lookup decodes `X`
directly from the name and returns `X` if slot `X` currently bears
exactly that logical name and 0 otherwise, without consulting the hash.
Names with octal value 0 (such as `tmp_0`) are *not* covered: the code
treats them as ordinary names (see the counterexample). -/
theorem C6_tmp_names (strHash : Name → Nat) (st : NState)
    (bid : Nat) (ds : Name) (hX : 1 ≤ strtolOct ds 0) :
    (∀ j ∈ (BBPinithash strHash st).2,
        st.logical j ≠ some (tmpTag ++ ds)) ∧
    (BBPrename strHash st bid (tmpTag ++ ds)).inserted = false ∧
    (st.logical bid ≠ some (tmpTag ++ ds) → strtolOct ds 0 ≠ bid →
      (BBPrename strHash st bid (tmpTag ++ ds)).res = RenameRes.illegal) ∧
    BBP_find strHash st (tmpTag ++ ds)
      = { result :=
            if strtolOct ds 0 < st.size ∧
               st.logical (strtolOct ds 0) = some (tmpTag ++ ds)
            then strtolOct ds 0 else 0,
          hashTouched := false } := by
  refine ⟨?_, BBPrename_tmp_no_insert strHash st bid ds hX,
    fun hcur hbid => BBPrename_tmp_illegal strHash st bid ds hX hcur hbid,
    BBP_find_tmp strHash st ds hX⟩
  intro j hj hcontra
  obtain ⟨s, hs, htmp⟩ :=
    inithashLoop_inserted strHash (st.size - 1)
      { st with hashHead := fun _ => 0 } j hj
  rw [show ({ st with hashHead := fun _ => 0 } : NState).logical
        = st.logical from rfl, hcontra] at hs
  have : BBPtmpcheck (tmpTag ++ ds) = false := by
    cases hs; exact htmp
  rw [show BBPtmpcheck (tmpTag ++ ds) = startsW tmpTag (tmpTag ++ ds)
        from rfl, startsW_append] at this
  cases this

/-- A concrete name-index state for C6: six slots, slot 5 named `tmp_5`,
empty hash. -/
def c6state : NState :=
  { size := 6,
    logical := fun j => if j = 5 then some (tmpTag ++ ['5']) else none,
    hashHead := fun _ => 0, next := fun _ => 0, free := 0, mask := 7 }

/-- Witness for C6 (amended) at `ds = "5"`, so the name is `tmp_5` with
octal value 5, on the concrete state `c6state`. -/
theorem C6_tmp_names_witness :
    (∀ j ∈ (BBPinithash (fun _ => 0) c6state).2,
        c6state.logical j ≠ some (tmpTag ++ ['5'])) ∧
    (BBPrename (fun _ => 0) c6state 3 (tmpTag ++ ['5'])).inserted = false ∧
    (c6state.logical 3 ≠ some (tmpTag ++ ['5']) → strtolOct ['5'] 0 ≠ 3 →
      (BBPrename (fun _ => 0) c6state 3 (tmpTag ++ ['5'])).res
        = RenameRes.illegal) ∧
    BBP_find (fun _ => 0) c6state (tmpTag ++ ['5'])
      = { result :=
            if strtolOct ['5'] 0 < c6state.size ∧
               c6state.logical (strtolOct ['5'] 0) = some (tmpTag ++ ['5'])
            then strtolOct ['5'] 0 else 0,
          hashTouched := false } :=
  C6_tmp_names (fun _ => 0) c6state 3 ['5'] (by decide)

/-- C6 counterexample: the name `tmp_0` *is* of the form `tmp_<octal>`,
yet `BBPrename(5, "tmp_0")` inserts it into the name-hash index
(`BBPnamecheck` decodes 0, which the rename path treats as "not a
temporary name"), and a subsequent lookup of `tmp_0` walks a hash bucket
and returns 5 — not the decoded id 0 — so all three parts of the claim
fail at this name. -/
theorem C6_counterexample :
    BBPtmpcheck (tmpTag ++ ['0']) = true ∧
    (BBPrename (fun _ => 0) c6state 5 (tmpTag ++ ['0'])).inserted = true ∧
    (BBP_find (fun _ => 0)
        (BBPrename (fun _ => 0) c6state 5 (tmpTag ++ ['0'])).st
        (tmpTag ++ ['0'])).hashTouched = true ∧
    (BBP_find (fun _ => 0)
        (BBPrename (fun _ => 0) c6state 5 (tmpTag ++ ['0'])).st
        (tmpTag ++ ['0'])).result = 5 := by
  decide

end GdkBbp

namespace GdkBbp

namespace Recover

open Names

/-! ## Recovery: `force_move`, `recover_dir`, `BBPrecover`

The filesystem is a list of `(directory, filename)` pairs; `GDKmove` is
`rename(2)` modelled as failing when the destination exists (which is why
`force_move` clears the destination and retries), and `MT_remove` always
succeeds in the model (hard I/O errors are out of scope of the claims,
which describe the success behavior).  `BBPrecover`'s `readdir` stream is
the explicit `entries` list; the name-lookup fallback (`BBP_find` on a
non-digit stem) and `BBPvalid` are the `lookup`/`valid` parameters. -/

def BATDIR : List Char := ['b', 'a', 't']
def BAKDIR : List Char := BATDIR ++ ['/', 'B', 'A', 'C', 'K', 'U', 'P']
def LEFTDIR : List Char :=
  BATDIR ++ ['/', 'L', 'E', 'F', 'T', 'O', 'V', 'E', 'R', 'S']
def bbpdirName : List Char := ['B', 'B', 'P', '.', 'd', 'i', 'r']
def bbpbakName : List Char := ['B', 'B', 'P', '.', 'b', 'a', 'k']
def killSuf : List Char := ['.', 'k', 'i', 'l', 'l']
def newSuf : List Char := ['.', 'n', 'e', 'w']

/-- `endsW l suf`: `l` ends with `suf` (the `strrchr(name, '.')` test of
`force_move` against `".kill"` is equivalent to this suffix test, since
`"kill"` contains no further dot). -/
def endsW (l suf : List Char) : Bool := startsW suf.reverse l.reverse

def isDigit (c : Char) : Bool := '0' ≤ c && c ≤ '9'

structure FS where
  files : List (List Char × List Char)
deriving DecidableEq, Repr

/-- File presence. -/
def FS.Mem (fs : FS) (d n : List Char) : Prop := (d, n) ∈ fs.files

instance (fs : FS) (d n : List Char) : Decidable (fs.Mem d n) := by
  unfold FS.Mem
  infer_instance

/-- `MT_remove` (also covers the "ENOENT is fine" uses). -/
def FS.remove (fs : FS) (d n : List Char) : FS :=
  ⟨fs.files.filter (fun p => ¬(p.1 = d ∧ p.2 = n))⟩

def FS.add (fs : FS) (d n : List Char) : FS := ⟨(d, n) :: fs.files⟩

/-- `GDKmove(src, dst)`: rename; fails when the source is missing or the
destination exists. -/
def GDKmove (fs : FS) (sd sn dd dn : List Char) : FS × Bool :=
  if fs.Mem sd sn ∧ ¬ fs.Mem dd dn then ((fs.remove sd sn).add dd dn, true)
  else (fs, false)

/-- `force_move(farmid, srcdir, dstdir, name)`.  For a `*.kill` name:
remove `dstdir/<name minus ".kill">` (the `.new` pre-image), then remove
the `.kill` marker itself.  Otherwise move the file, clearing the
destination and retrying once when the plain move fails.  The trailing
list is the trace of paths removed by the `.kill` branch, in order. -/
def force_move (fs : FS) (srcdir dstdir name : List Char) :
    FS × Bool × List (List Char) :=
  if endsW name killSuf then
    let base := name.take (name.length - killSuf.length)
    -- step 1: remove the X.new file that is going to be overridden by X
    let fs1 := fs.remove dstdir base
    -- step 2: now remove the .kill file
    let fs2 := fs1.remove srcdir name
    (fs2, true, [dstdir ++ '/' :: base, srcdir ++ '/' :: name])
  else
    let m1 := GDKmove fs srcdir name dstdir name
    if m1.2 then (m1.1, true, [])
    else
      -- two legal causes: file exists or dir does not exist
      let fs1 := fs.remove dstdir name  -- clear destination
      let m2 := GDKmove fs1 srcdir name dstdir name
      (m2.1, m2.2, [])

/-- `recover_dir(farmid, direxists)`: save the live `BBP.dir` aside as
`BBP.bak` when present, then move the backed-up `BBP.dir` into place. -/
def recover_dir (fs : FS) : FS × Bool :=
  let fsA :=
    if fs.Mem BATDIR bbpdirName then
      (GDKmove (fs.remove BATDIR bbpbakName)
        BATDIR bbpdirName BATDIR bbpbakName).1
    else fs
  GDKmove fsA BAKDIR bbpdirName BATDIR bbpdirName

/-- The two octal digits of `i & 077` (`'0' + (i >> 3)`, `'0' + (i & 7)`). -/
def twoOct (i : Nat) : List Char :=
  [Char.ofNat (48 + (i % 64) / 8), Char.ofNat (48 + i % 8)]

/-- `BBPsubdir_recursive(s, i)`: emit the 64-ary path of `i >> 6`. -/
def BBPsubdir_recursive (i0 : Nat) : List Char :=
  (if _h : i0 / 64 ≥ 64 then BBPsubdir_recursive (i0 / 64) ++ ['/'] else [])
    ++ twoOct (i0 / 64 % 64)
termination_by i0
decreasing_by exact Nat.div_lt_self (by omega) (by omega)

/-- `BBPgetsubdir(s, i)`: empty for `i < 0100`. -/
def BBPgetsubdir (i : Nat) : List Char :=
  if i ≥ 64 then BBPsubdir_recursive i else []

/-- The live directory of bat `i` (`dstpath = BATDIR DIR_SEP <subdir>`). -/
def liveDir (i : Nat) : List Char := BATDIR ++ '/' :: BBPgetsubdir i

/-- Rolling state of the `readdir` walk of `BBPrecover`. -/
structure WalkSt where
  fs : FS
  dirseen : Bool
  ret : Bool
deriving DecidableEq, Repr

/-- One `readdir` entry of the `BBPrecover` walk: remove hidden files,
note `BBP.dir`, otherwise derive the id from the stem (octal prefix or
name lookup) and `force_move` the file to quarantine or to its live
subdirectory. -/
def recoverStep (lookup : List Char → Nat) (size : Nat) (valid : Nat → Bool)
    (ws : WalkSt) (name : List Char) : WalkSt :=
  if startsW ['.'] name then
    if name = ['.'] ∨ name = ['.', '.'] then ws
    else { ws with fs := ws.fs.remove BAKDIR name }
  else if name = bbpdirName then { ws with dirseen := true }
  else
    let stem := name.takeWhile (fun c => c ≠ '.')
    let i := if isDigit (name.headD ' ') then strtolOct stem 0
             else lookup stem
    if i = 0 ∨ i ≥ size ∨ valid i = false then
      { ws with fs := (force_move ws.fs BAKDIR LEFTDIR name).1 }
    else
      let r := force_move ws.fs BAKDIR (liveDir i) name
      { ws with fs := r.1, ret := ws.ret && r.2.1 }

/-- On-disk state around recovery: whether `BAKDIR` exists, plus the
files. -/
structure RecState where
  bakdirExists : Bool
  fs : FS
deriving DecidableEq, Repr

/-- `BBPrecover(farmid)`: nothing to do when `BAKDIR` does not exist
(`opendir` fails with `ENOENT`); otherwise walk the backup directory,
restore a saved `BBP.dir`, and remove `BAKDIR` (which fails when files
were left behind). -/
def BBPrecover (lookup : List Char → Nat) (size : Nat) (valid : Nat → Bool)
    (entries : List (List Char)) (st : RecState) : Bool × RecState :=
  if !st.bakdirExists then (true, st)  -- nothing to do
  else
    let ws := entries.foldl (recoverStep lookup size valid)
      ⟨st.fs, false, true⟩
    let rd := if ws.dirseen && ws.ret then recover_dir ws.fs
              else (ws.fs, ws.ret)
    let ret2 := if ws.dirseen && ws.ret then rd.2 else ws.ret
    if ret2 then
      if rd.1.files.all (fun p => ¬(p.1 = BAKDIR)) then
        (true, { bakdirExists := false, fs := rd.1 })
      else (false, { st with fs := rd.1 })
    else (false, { st with fs := rd.1 })

end Recover

end GdkBbp

namespace GdkBbp

namespace Recover

theorem Mem_remove_of_not (fs : FS) (d n a b : List Char)
    (h : ¬ fs.Mem a b) : ¬ (fs.remove d n).Mem a b := by
  intro hc
  exact h (List.mem_filter.mp hc).1

theorem Mem_remove_self (fs : FS) (d n : List Char) :
    ¬ (fs.remove d n).Mem d n := by
  intro hc
  have := (List.mem_filter.mp hc).2
  simp at this

theorem Mem_add_iff (fs : FS) (d n a b : List Char) :
    (fs.add d n).Mem a b ↔ (a = d ∧ b = n) ∨ fs.Mem a b := by
  simp [FS.add, FS.Mem, Prod.ext_iff]

theorem GDKmove_mem (fs : FS) (sd sn dd dn a b : List Char)
    (h : ¬ fs.Mem a b) (hne : ¬(a = dd ∧ b = dn)) :
    ¬ (GDKmove fs sd sn dd dn).1.Mem a b := by
  unfold GDKmove
  split
  · dsimp only
    rw [Mem_add_iff]
    rintro (hc | hc)
    · exact hne hc
    · exact Mem_remove_of_not fs sd sn a b h hc
  · exact h

theorem endsW_append (l suf : List Char) : endsW (l ++ suf) suf = true := by
  unfold endsW
  rw [List.reverse_append]
  exact Names.startsW_append _ _

theorem take_base (base : List Char) :
    (base ++ killSuf).take ((base ++ killSuf).length - killSuf.length)
      = base := by
  rw [List.length_append,
      show base.length + killSuf.length - killSuf.length = base.length
        by omega]
  exact List.take_left base killSuf

theorem force_move_mem (fs : FS) (sd dd nm a b : List Char)
    (h : ¬ fs.Mem a b)
    (hb : endsW nm killSuf = true ∨ b ≠ nm) :
    ¬ (force_move fs sd dd nm).1.Mem a b := by
  unfold force_move
  split
  · exact Mem_remove_of_not _ _ _ _ _ (Mem_remove_of_not _ _ _ _ _ h)
  · next hknot =>
    have hbn : b ≠ nm := by
      rcases hb with h1 | h1
      · exact (hknot h1).elim
      · exact h1
    dsimp only
    split
    · next hm =>
      unfold GDKmove at hm ⊢
      split
      · dsimp only
        rw [Mem_add_iff]
        rintro (hc | hc)
        · exact hbn hc.2
        · exact Mem_remove_of_not fs sd nm a b h hc
      · exact h
    · apply GDKmove_mem
      · exact Mem_remove_of_not _ _ _ _ _ h
      · exact fun hc => hbn hc.2

theorem recoverStep_mem (lookup : List Char → Nat) (size : Nat)
    (valid : Nat → Bool) (ws : WalkSt) (e a b : List Char)
    (h : ¬ ws.fs.Mem a b)
    (hb : endsW b killSuf = true ∨ b ≠ e) :
    ¬ (recoverStep lookup size valid ws e).fs.Mem a b := by
  have hb' : endsW e killSuf = true ∨ b ≠ e := by
    rcases hb with h1 | h1
    · by_cases hbe : b = e
      · exact Or.inl (hbe ▸ h1)
      · exact Or.inr hbe
    · exact Or.inr h1
  unfold recoverStep
  split
  · split
    · exact h
    · exact Mem_remove_of_not _ _ _ _ _ h
  · split
    · exact h
    · dsimp only
      split <;> split <;> exact force_move_mem _ _ _ _ _ _ h hb'

theorem walk_mem (lookup : List Char → Nat) (size : Nat) (valid : Nat → Bool)
    (entries : List (List Char)) (ws : WalkSt) (a b : List Char)
    (h : ¬ ws.fs.Mem a b)
    (hb : endsW b killSuf = true ∨ ∀ e ∈ entries, b ≠ e) :
    ¬ (entries.foldl (recoverStep lookup size valid) ws).fs.Mem a b := by
  induction entries generalizing ws with
  | nil => exact h
  | cons e rest ih =>
    rw [List.foldl_cons]
    apply ih
    · apply recoverStep_mem lookup size valid ws e a b h
      rcases hb with h1 | h1
      · exact Or.inl h1
      · exact Or.inr (h1 e (List.mem_cons_self e rest))
    · rcases hb with h1 | h1
      · exact Or.inl h1
      · exact Or.inr (fun e' he' => h1 e' (List.mem_cons_of_mem e he'))

theorem recover_dir_mem (fs : FS) (a b : List Char) (h : ¬ fs.Mem a b)
    (h1 : b ≠ bbpdirName) (h2 : b ≠ bbpbakName) :
    ¬ (recover_dir fs).1.Mem a b := by
  unfold recover_dir
  dsimp only
  apply GDKmove_mem
  · split
    · apply GDKmove_mem
      · exact Mem_remove_of_not _ _ _ _ _ h
      · exact fun hc => h2 hc.2
    · exact h
  · exact fun hc => h1 hc.2

theorem BBPrecover_fs (lookup : List Char → Nat) (size : Nat)
    (valid : Nat → Bool) (entries : List (List Char)) (st : RecState)
    (h : st.bakdirExists = true) :
    (BBPrecover lookup size valid entries st).2.fs
      = (if (entries.foldl (recoverStep lookup size valid)
              ⟨st.fs, false, true⟩).dirseen
            && (entries.foldl (recoverStep lookup size valid)
              ⟨st.fs, false, true⟩).ret
         then (recover_dir (entries.foldl (recoverStep lookup size valid)
              ⟨st.fs, false, true⟩).fs).1
         else (entries.foldl (recoverStep lookup size valid)
              ⟨st.fs, false, true⟩).fs) := by
  unfold BBPrecover
  simp only [h, Bool.not_true, Bool.false_eq_true, if_false]
  by_cases hdr : ((entries.foldl (recoverStep lookup size valid)
      ⟨st.fs, false, true⟩).dirseen
        && (entries.foldl (recoverStep lookup size valid)
      ⟨st.fs, false, true⟩).ret) = true
  · simp only [hdr, if_true]
    split
    · split <;> rfl
    · rfl
  · simp only [Bool.not_eq_true] at hdr
    simp only [hdr, Bool.false_eq_true, if_false]
    split
    · split <;> rfl
    · rfl

end Recover

end GdkBbp

namespace GdkBbp

namespace Recover

open Names

theorem recoverStep_kill (lookup : List Char → Nat) (size : Nat)
    (valid : Nat → Bool) (ws : WalkSt) (base : List Char) (I : Nat)
    (hI : I = strtolOct ((base ++ killSuf).takeWhile (fun c => c ≠ '.')) 0)
    (hdot : startsW ['.'] (base ++ killSuf) = false)
    (hd : isDigit ((base ++ killSuf).headD ' ') = true)
    (hi : 1 ≤ I) (hsize : I < size) (hvalid : valid I = true) :
    ¬ (recoverStep lookup size valid ws (base ++ killSuf)).fs.Mem
        (liveDir I) base ∧
    ¬ (recoverStep lookup size valid ws (base ++ killSuf)).fs.Mem
        BAKDIR (base ++ killSuf) := by
  have hmk : endsW (base ++ killSuf) killSuf = true := endsW_append _ _
  have hnbd : (base ++ killSuf) ≠ bbpdirName := by
    intro heq
    rw [heq] at hmk
    exact absurd hmk (by decide)
  unfold recoverStep
  simp only [hdot, Bool.false_eq_true, if_false, if_neg hnbd, hd, if_true,
    ← hI]
  rw [if_neg (show ¬(I = 0 ∨ I ≥ size ∨ valid I = false) by
        push_neg
        exact ⟨by omega, by omega, by simp [hvalid]⟩)]
  dsimp only
  unfold force_move
  rw [if_pos hmk]
  dsimp only
  rw [take_base]
  exact ⟨Mem_remove_of_not _ _ _ _ _ (Mem_remove_self _ _ _),
    Mem_remove_self _ _ _⟩

theorem walk_kill (lookup : List Char → Nat) (size : Nat)
    (valid : Nat → Bool) (base : List Char) (I : Nat)
    (hI : I = strtolOct ((base ++ killSuf).takeWhile (fun c => c ≠ '.')) 0)
    (hdot : startsW ['.'] (base ++ killSuf) = false)
    (hd : isDigit ((base ++ killSuf).headD ' ') = true)
    (hi : 1 ≤ I) (hsize : I < size) (hvalid : valid I = true) :
    ∀ (entries : List (List Char)) (ws : WalkSt),
      (base ++ killSuf) ∈ entries → (∀ e ∈ entries, base ≠ e) →
      ¬ (entries.foldl (recoverStep lookup size valid) ws).fs.Mem
          (liveDir I) base ∧
      ¬ (entries.foldl (recoverStep lookup size valid) ws).fs.Mem
          BAKDIR (base ++ killSuf) := by
  intro entries
  induction entries with
  | nil =>
    intro ws hmem _
    cases hmem
  | cons e rest ih =>
    intro ws hmem hbase
    rw [List.foldl_cons]
    by_cases he : e = base ++ killSuf
    · subst he
      have hstep := recoverStep_kill lookup size valid ws base I hI hdot hd
        hi hsize hvalid
      constructor
      · exact walk_mem lookup size valid rest _ _ _ hstep.1
          (Or.inr (fun e' he' => hbase e' (List.mem_cons_of_mem _ he')))
      · exact walk_mem lookup size valid rest _ _ _ hstep.2
          (Or.inl (endsW_append _ _))
    · have hmem' : (base ++ killSuf) ∈ rest := by
        rcases List.mem_cons.mp hmem with h1 | h1
        · exact absurd h1.symm he
        · exact h1
      exact ih _ hmem' (fun e' he' => hbase e' (List.mem_cons_of_mem _ he'))

end Recover

open Recover Names

/-- C8: during recovery with `BAKDIR` present, for a backup entry of the
form `<base>.kill` whose stem decodes (octal) to a live bat id `I`, the
`force_move` of that entry first removes `<livedir>/<base>` (the `.new`
pre-image in the live tree; the removal trace lists it before the marker)
and then removes the marker itself, and after `BBPrecover` returns
neither the `.new` file in the bat's live directory nor the `.kill`
marker in `BAKDIR` exists (no later walk step or catalog restore
re-creates them, `base` itself not being a backup entry). -/
theorem C8_kill_recovery (lookup : List Char → Nat) (size : Nat)
    (valid : Nat → Bool) (entries : List (List Char)) (st : RecState)
    (base : List Char) (I : Nat)
    (hI : I = strtolOct ((base ++ killSuf).takeWhile (fun c => c ≠ '.')) 0)
    (hex : st.bakdirExists = true)
    (hmem : (base ++ killSuf) ∈ entries)
    (hdot : startsW ['.'] (base ++ killSuf) = false)
    (hd : isDigit ((base ++ killSuf).headD ' ') = true)
    (hi : 1 ≤ I) (hsize : I < size) (hvalid : valid I = true)
    (hb1 : base ≠ bbpdirName) (hb2 : base ≠ bbpbakName)
    (hbase : ∀ e ∈ entries, base ≠ e) :
    ¬ (BBPrecover lookup size valid entries st).2.fs.Mem (liveDir I) base ∧
    ¬ (BBPrecover lookup size valid entries st).2.fs.Mem
        BAKDIR (base ++ killSuf) ∧
    ∀ fs sd dd, (force_move fs sd dd (base ++ killSuf)).2.2
        = [dd ++ '/' :: base, sd ++ '/' :: (base ++ killSuf)] := by
  have hwk := walk_kill lookup size valid base I hI hdot hd hi hsize hvalid
    entries ⟨st.fs, false, true⟩ hmem hbase
  have hmk : endsW (base ++ killSuf) killSuf = true := endsW_append _ _
  have hnd : (base ++ killSuf) ≠ bbpdirName := by
    intro heq
    rw [heq] at hmk
    exact absurd hmk (by decide)
  have hnb : (base ++ killSuf) ≠ bbpbakName := by
    intro heq
    rw [heq] at hmk
    exact absurd hmk (by decide)
  refine ⟨?_, ?_, ?_⟩
  · rw [BBPrecover_fs lookup size valid entries st hex]
    split
    · exact recover_dir_mem _ _ _ hwk.1 hb1 hb2
    · exact hwk.1
  · rw [BBPrecover_fs lookup size valid entries st hex]
    split
    · exact recover_dir_mem _ _ _ hwk.2 hnd hnb
    · exact hwk.2
  · intro fs sd dd
    unfold force_move
    rw [if_pos hmk]
    dsimp only
    rw [take_base]

/-- The base name `3.new` and its live directory content for the C8
witness. -/
def c8base : List Char := ['3', '.', 'n', 'e', 'w']

/-- A disk state holding a stale `3.new` in the live tree and the marker
`3.new.kill` in `BAKDIR`. -/
def c8state : RecState :=
  { bakdirExists := true,
    fs := ⟨[(liveDir 3, c8base), (BAKDIR, c8base ++ killSuf)]⟩ }

/-- Witness for C8 at the concrete marker `3.new.kill` (id 3, live and
valid): after recovery, neither `bat//3.new` nor the marker exists, and
the trace shows the `.new` removal preceding the marker removal. -/
theorem C8_kill_recovery_witness :
    ¬ (BBPrecover (fun _ => 0) 4 (fun _ => true)
        [c8base ++ killSuf] c8state).2.fs.Mem (liveDir 3) c8base ∧
    ¬ (BBPrecover (fun _ => 0) 4 (fun _ => true)
        [c8base ++ killSuf] c8state).2.fs.Mem BAKDIR (c8base ++ killSuf) ∧
    ∀ fs sd dd, (force_move fs sd dd (c8base ++ killSuf)).2.2
        = [dd ++ '/' :: c8base, sd ++ '/' :: (c8base ++ killSuf)] :=
  C8_kill_recovery (fun _ => 0) 4 (fun _ => true) [c8base ++ killSuf]
    c8state c8base 3 (by decide) rfl (List.mem_cons_self _ _)
    (by decide) (by decide) (by decide) (by decide) rfl
    (by decide) (by decide) (by decide)

/-- C9: when the backup directory does not exist, `BBPrecover` returns
success and leaves the state (the on-disk tree; no in-memory BBP state is
touched at all on this path) completely unchanged, so it is safe to run
before every commit and at every startup. -/
theorem C9_recover_no_bakdir (lookup : List Char → Nat) (size : Nat)
    (valid : Nat → Bool) (entries : List (List Char)) (st : RecState)
    (h : st.bakdirExists = false) :
    BBPrecover lookup size valid entries st = (true, st) := by
  unfold BBPrecover
  simp [h]

/-- Witness for C9 on a concrete tree with live files but no `BAKDIR`. -/
theorem C9_recover_no_bakdir_witness :
    BBPrecover (fun _ => 0) 4 (fun _ => true) []
        ⟨false, ⟨[(liveDir 3, c8base)]⟩⟩
      = (true, ⟨false, ⟨[(liveDir 3, c8base)]⟩⟩) :=
  C9_recover_no_bakdir (fun _ => 0) 4 (fun _ => true) []
    ⟨false, ⟨[(liveDir 3, c8base)]⟩⟩ rfl

end GdkBbp
